import Mathlib

/-!
Verification development for the Text-Extractor repository
(src/app.py, src/utils/img_processing.py, src/model/ocr_model.py).

Text is modelled as `List Char`; the Python string primitives used by the
source (`str.split`, `str.split(sep)`, `str.strip`, `str.lower`,
`str.lstrip`, `os.path.basename`, `os.path.splitext`, `os.path.join`)
are embedded below, and each source function the claims touch is embedded
on top of them.  External effects (cv2 decode, PIL open/verify, the OCR
backend, the system clock, filesystem metadata) are passed in explicitly
as oracle arguments, so every definition is executable.
-/

abbrev Str := List Char

/-- Characters treated as whitespace by Python's `str.split()` / `str.strip()`
(ASCII fragment, which is all the source ever feeds them). -/
def pyIsSpace (c : Char) : Bool :=
  c == ' ' || c == '\t' || c == '\n' || c == '\r' || c == '\x0b' || c == '\x0c'

/-- Worker for `str.split()` (no separator): accumulates the current token in
reverse, splitting on whitespace runs and discarding empty tokens. -/
def pySplitWsAux : Str → Str → List Str
  | [], cur => if cur.isEmpty then [] else [cur.reverse]
  | c :: rest, cur =>
    if pyIsSpace c then
      if cur.isEmpty then pySplitWsAux rest [] else cur.reverse :: pySplitWsAux rest []
    else pySplitWsAux rest (c :: cur)

/-- Python `text.split()`: whitespace-separated tokens, empties dropped. -/
def pySplitWs (l : Str) : List Str := pySplitWsAux l []

/-- Worker for `str.split(sep)` with a one-character separator. -/
def pySplitOnAux (sep : Char) : Str → Str → List Str
  | [], cur => [cur.reverse]
  | c :: rest, cur =>
    if c == sep then cur.reverse :: pySplitOnAux sep rest []
    else pySplitOnAux sep rest (c :: cur)

/-- Python `text.split(sep)`: segments between separators, empties kept
(so the result always has one more segment than there are separators). -/
def pySplitOn (sep : Char) (l : Str) : List Str := pySplitOnAux sep l []

/-- Python `text.strip()`: drop leading whitespace, then trailing whitespace. -/
def pyStrip (l : Str) : Str :=
  ((l.dropWhile pyIsSpace).reverse.dropWhile pyIsSpace).reverse

/-- Python `text.lower()` (ASCII fragment). -/
def pyLower (l : Str) : Str := l.map Char.toLower

/-- Python `text.lstrip(c)` for a one-character argument: drop every leading
occurrence of `c`. -/
def pyLstrip (c : Char) (l : Str) : Str := l.dropWhile (fun x => x == c)

/-- Independent token counter used to state claim C1: counts maximal runs of
non-whitespace characters.  The flag records whether the previous character
was part of a token. -/
def tokenCountAux : Str → Bool → Nat
  | [], _ => 0
  | c :: rest, inTok =>
    if pyIsSpace c then tokenCountAux rest false
    else (if inTok then 0 else 1) + tokenCountAux rest true

/-- Number of whitespace-separated tokens of `l`, counted directly. -/
def numTokens (l : Str) : Nat := tokenCountAux l false

/-- The JSON object built by `export_json` in src/app.py (lines 232-238):
`character_count = len(text)`, `word_count = len(text.split())`,
`line_count = len(text.split('\n'))`. -/
structure JsonExport where
  filename : Str
  text : Str
  character_count : Nat
  word_count : Nat
  line_count : Nat
deriving DecidableEq

/-- Embedding of the dictionary constructed in src/app.py `export_json`. -/
def export_json (filename text : Str) : JsonExport :=
  { filename := filename
    text := text
    character_count := text.length
    word_count := (pySplitWs text).length
    line_count := (pySplitOn '\n' text).length }

/-- `pySplitWsAux` produces as many tokens as the direct counter says,
plus one for a pending nonempty accumulator. -/
theorem pySplitWsAux_length (l : Str) :
    ∀ cur : Str, (pySplitWsAux l cur).length =
      (if cur.isEmpty then 0 else 1) + tokenCountAux l (!cur.isEmpty) := by
  induction l with
  | nil =>
    intro cur
    by_cases h : cur.isEmpty <;> simp [pySplitWsAux, tokenCountAux, h]
  | cons c rest ih =>
    intro cur
    by_cases hs : pyIsSpace c
    · by_cases h : cur.isEmpty
      · simp [pySplitWsAux, tokenCountAux, hs, h, ih]
      · simp [pySplitWsAux, tokenCountAux, hs, h, ih]
        omega
    · by_cases h : cur.isEmpty
      · simp [pySplitWsAux, tokenCountAux, hs, h, ih, List.isEmpty_cons]
      · simp [pySplitWsAux, tokenCountAux, hs, h, ih, List.isEmpty_cons]

/-- `text.split()` has exactly `numTokens text` elements. -/
theorem pySplitWs_length (l : Str) : (pySplitWs l).length = numTokens l := by
  have h := pySplitWsAux_length l []
  simpa [pySplitWs, numTokens] using h

/-- `text.split(sep)` has one more element than there are separators. -/
theorem pySplitOnAux_length (sep : Char) (l : Str) :
    ∀ cur : Str, (pySplitOnAux sep l cur).length = l.count sep + 1 := by
  induction l with
  | nil => intro cur; simp [pySplitOnAux]
  | cons c rest ih =>
    intro cur
    by_cases h : c == sep
    · have hc : c = sep := by simpa using h
      simp [pySplitOnAux, h, ih, hc, List.count_cons]
    · have hc : ¬ c = sep := by
        intro he; exact absurd (by simp [he]) h
      simp [pySplitOnAux, h, ih, List.count_cons, hc]

theorem pySplitOn_length (sep : Char) (l : Str) :
    (pySplitOn sep l).length = l.count sep + 1 := by
  simpa [pySplitOn] using pySplitOnAux_length sep l []

/-- C1: for every text and filename, the JSON exporter reports
`character_count` equal to the length of the text, `word_count` equal to the
number of whitespace-separated tokens, and `line_count` equal to the number of
segments obtained by splitting on newline (one more than the newline count);
in particular on the empty text it reports counts 0, 0 and 1. -/
theorem export_json_counts (filename t : Str) :
    (export_json filename t).character_count = t.length ∧
    (export_json filename t).word_count = numTokens t ∧
    (export_json filename t).line_count = t.count '\n' + 1 ∧
    (export_json filename []).character_count = 0 ∧
    (export_json filename []).word_count = 0 ∧
    (export_json filename []).line_count = 1 := by
  refine ⟨rfl, pySplitWs_length t, pySplitOn_length '\n' t, rfl, ?_, ?_⟩
  · simp [export_json, pySplitWs, pySplitWsAux]
  · simp [export_json, pySplitOn, pySplitOnAux]

/-! ## Paths and the extraction pipeline (src/app.py lines 47-89) -/

/-- Python `os.path.basename`: the segment after the last slash. -/
def basename (p : Str) : Str := (p.reverse.takeWhile (fun c => !(c == '/'))).reverse

/-- Python `os.path.join(dir, name)` for the shapes the source uses
(relative `name` with no leading slash). -/
def pathJoin (dir name : Str) : Str := if dir.isEmpty then name else dir ++ '/' :: name

/-- The upload folder configured in src/app.py for local runs. -/
def uploadFolder : Str := "uploads".data

/-- The derived-file path built in `preprocess_image` (src/app.py line 68):
`os.path.join(UPLOAD_FOLDER, "processed_" + basename(image_path))`. -/
def processedPath (path : Str) : Str :=
  pathJoin uploadFolder ("processed_".data ++ basename path)

/-- Filesystem state: the list of paths that currently exist. -/
abbrev FS := List Str

/-- File-effect embedding of `preprocess_image` (src/app.py lines 47-71):
`decodes` is the cv2.imread oracle.  On decode failure the original path is
returned unchanged; on success the processed derivative is written and its
path returned.  (The pixel pipeline itself is embedded separately as
`preprocess_pixels`.) -/
def preprocess_image (decodes : Str → Bool) (fs : FS) (path : Str) : Str × FS :=
  if decodes path then (processedPath path, processedPath path :: fs)
  else (path, fs)

/-- The sentinel returned by `extract_text_with_tesseract` when the OCR
backend raises (src/app.py line 89). -/
def sentinel : Str := "Error extracting text".data

/-- Embedding of `extract_text_with_tesseract` (src/app.py lines 73-89).
`ocr` is the pytesseract oracle; an `Except.error` value models the backend
raising.  On success the processed derivative is removed when it exists and
differs from the input, and the stripped text is returned; on error the
exception is caught after the removal statement, so the filesystem is left
as the preprocessing step produced it and the sentinel is returned. -/
def extract_text_with_tesseract (decodes : Str → Bool) (ocr : Str → Except Str Str)
    (fs : FS) (path : Str) : Str × FS :=
  match ocr (preprocess_image decodes fs path).1 with
  | Except.ok t =>
      (pyStrip t,
        if (preprocess_image decodes fs path).1 ∈ (preprocess_image decodes fs path).2 ∧
            ¬ (preprocess_image decodes fs path).1 = path
        then (preprocess_image decodes fs path).2.erase (preprocess_image decodes fs path).1
        else (preprocess_image decodes fs path).2)
  | Except.error _ => (sentinel, (preprocess_image decodes fs path).2)

theorem dropWhile_idem (p : Char → Bool) (l : Str) :
    (l.dropWhile p).dropWhile p = l.dropWhile p := by
  induction l with
  | nil => rfl
  | cons c t ih =>
    by_cases h : p c
    · simp [List.dropWhile_cons, h, ih]
    · simp [List.dropWhile_cons, h]

theorem dropWhile_cons_head_false (p : Char → Bool) (l : Str) :
    ∀ x t, l.dropWhile p = x :: t → p x = false := by
  induction l with
  | nil => intro x t h; simp at h
  | cons c r ih =>
    intro x t h
    by_cases hc : p c
    · rw [List.dropWhile_cons, if_pos hc] at h
      exact ih x t h
    · rw [List.dropWhile_cons, if_neg hc] at h
      cases h
      simpa using hc

theorem reverse_dropWhile_append (p : Char → Bool) (a : Str) :
    a = (a.reverse.dropWhile p).reverse ++ (a.reverse.takeWhile p).reverse := by
  have h : a.reverse.takeWhile p ++ a.reverse.dropWhile p = a.reverse :=
    List.takeWhile_append_dropWhile p a.reverse
  calc a = a.reverse.reverse := (List.reverse_reverse a).symm
    _ = (a.reverse.takeWhile p ++ a.reverse.dropWhile p).reverse := by rw [h]
    _ = (a.reverse.dropWhile p).reverse ++ (a.reverse.takeWhile p).reverse :=
        List.reverse_append _ _

/-- Python `strip` is idempotent. -/
theorem pyStrip_idem (l : Str) : pyStrip (pyStrip l) = pyStrip l := by
  have hm : (pyStrip l).dropWhile pyIsSpace = pyStrip l := by
    cases hd : pyStrip l with
    | nil => rfl
    | cons y t =>
      have hd2 : ((l.dropWhile pyIsSpace).reverse.dropWhile pyIsSpace).reverse = y :: t := hd
      have hA : l.dropWhile pyIsSpace =
          y :: (t ++ ((l.dropWhile pyIsSpace).reverse.takeWhile pyIsSpace).reverse) := by
        conv_lhs => rw [reverse_dropWhile_append pyIsSpace (l.dropWhile pyIsSpace)]
        rw [hd2]
        rfl
      have hy : pyIsSpace y = false := dropWhile_cons_head_false pyIsSpace l y _ hA
      simp [List.dropWhile_cons, hy]
  show (((pyStrip l).dropWhile pyIsSpace).reverse.dropWhile pyIsSpace).reverse = pyStrip l
  rw [hm]
  have hrev : (pyStrip l).reverse = (l.dropWhile pyIsSpace).reverse.dropWhile pyIsSpace :=
    List.reverse_reverse _
  rw [hrev, dropWhile_idem]
  rfl

theorem takeWhile_append_all (p : Char → Bool) :
    ∀ xs ys : Str, (∀ x ∈ xs, p x = true) →
      List.takeWhile p (xs ++ ys) = xs ++ List.takeWhile p ys := by
  intro xs
  induction xs with
  | nil => intro ys _; rfl
  | cons c t ih =>
    intro ys hall
    have hc : p c = true := hall c (by simp)
    simp only [List.cons_append, List.takeWhile_cons, hc, if_true]
    rw [ih ys (fun x hx => hall x (by simp [hx]))]

/-- A basename never contains a slash. -/
theorem basename_no_slash (p : Str) : ¬ '/' ∈ basename p := by
  intro h
  rw [basename, List.mem_reverse] at h
  have := List.mem_takeWhile_imp h
  simp at this

/-- `os.path.basename` of `dir ++ "/" ++ name` is `name` when `name` has no
slash. -/
theorem basename_dir_append (dir name : Str) (h : ¬ '/' ∈ name) :
    basename (dir ++ '/' :: name) = name := by
  rw [basename, List.reverse_append, List.reverse_cons]
  have hall : ∀ x ∈ name.reverse, (fun c => !(c == '/')) x = true := by
    intro x hx
    rw [List.mem_reverse] at hx
    have hxne : ¬ x = '/' := by
      intro he
      exact h (he ▸ hx)
    simp [hxne]
  rw [List.append_assoc, takeWhile_append_all _ name.reverse _ hall]
  simp [List.takeWhile_cons]

/-- The processed derivative's basename is the input's basename prefixed with
the literal text from src/app.py line 68. -/
theorem basename_processedPath (path : Str) :
    basename (processedPath path) = "processed_".data ++ basename path := by
  have h : ¬ '/' ∈ ("processed_".data ++ basename path) := by
    intro hmem
    rcases List.mem_append.mp hmem with h1 | h2
    · revert h1; decide
    · exact basename_no_slash path h2
  have : processedPath path = uploadFolder ++ '/' :: ("processed_".data ++ basename path) := by
    rfl
  rw [this, basename_dir_append uploadFolder _ h]

/-- The processed derivative path always differs from the input path. -/
theorem processedPath_ne (path : Str) : ¬ processedPath path = path := by
  intro h
  have hb := congrArg basename h
  rw [basename_processedPath] at hb
  have := congrArg List.length hb
  simp [List.length_append] at this
  omega

/-- C2 counterexample: with a decodable image and an OCR backend that raises,
the processed derivative file (absent from the initial filesystem) is still
present when `extract_text_with_tesseract` returns — the cleanup statement is
skipped because the exception jumps to the handler.  Concrete input:
image path `uploads/img.png`, filesystem containing only that file. -/
theorem transient_file_leaks_on_ocr_error :
    processedPath ("uploads/img.png".data)
        ∈ (extract_text_with_tesseract (fun _ => true) (fun _ => Except.error ("fail".data))
            ["uploads/img.png".data] ("uploads/img.png".data)).2 ∧
    ¬ processedPath ("uploads/img.png".data) ∈ (["uploads/img.png".data] : FS) := by
  constructor
  · simp [extract_text_with_tesseract, preprocess_image]
  · decide

/-- C2 (amended): the transient preprocessed derivative (assumed not already
present) is deleted before `extract_text_with_tesseract` returns whenever the
OCR call succeeds; but when the OCR call raises, the derivative created for a
decodable image is left behind. -/
theorem transient_cleanup_amended (decodes : Str → Bool) (ocr : Str → Except Str Str)
    (fs : FS) (path : Str) (hfs : ¬ processedPath path ∈ fs) :
    ((∃ t, ocr (preprocess_image decodes fs path).1 = Except.ok t) →
      ¬ processedPath path ∈ (extract_text_with_tesseract decodes ocr fs path).2) ∧
    (decodes path = true →
      (∃ e, ocr (preprocess_image decodes fs path).1 = Except.error e) →
      processedPath path ∈ (extract_text_with_tesseract decodes ocr fs path).2) := by
  constructor
  · rintro ⟨t, ht⟩
    by_cases hdec : decodes path
    · have hpre : preprocess_image decodes fs path =
          (processedPath path, processedPath path :: fs) := by
        simp [preprocess_image, hdec]
      rw [extract_text_with_tesseract, ht, hpre]
      have hcond : processedPath path ∈ processedPath path :: fs ∧
          ¬ processedPath path = path := ⟨by simp, processedPath_ne path⟩
      simp only [if_pos hcond]
      intro hmem
      rw [List.erase_cons_head] at hmem
      exact hfs hmem
    · have hpre : preprocess_image decodes fs path = (path, fs) := by
        simp [preprocess_image, hdec]
      rw [extract_text_with_tesseract, ht, hpre]
      simpa using hfs
  · intro hdec
    rintro ⟨e, he⟩
    have hpre : preprocess_image decodes fs path =
        (processedPath path, processedPath path :: fs) := by
      simp [preprocess_image, hdec]
    rw [extract_text_with_tesseract, he, hpre]
    simp

/-- Witness for the amended C2 theorem at a concrete input. -/
theorem transient_cleanup_amended_witness :
    ¬ processedPath ("uploads/img.png".data)
        ∈ (extract_text_with_tesseract (fun _ => true) (fun _ => Except.ok ("hi there".data))
            [] ("uploads/img.png".data)).2 :=
  (transient_cleanup_amended (fun _ => true) (fun _ => Except.ok ("hi there".data))
    [] ("uploads/img.png".data) (by decide)).1 ⟨"hi there".data, rfl⟩

/-- C3 counterexample: a run in which the OCR backend succeeds and its
recognized text is the sentinel sentence itself makes the extractor return
exactly the sentinel on a non-error run, so the sentinel is not reserved to
error runs.  Concrete input: image path `uploads/img.png`, empty filesystem,
backend answering `Error extracting text`. -/
theorem success_run_returns_sentinel :
    (fun _ : Str => Except.ok (ε := Str) sentinel)
        ((preprocess_image (fun _ => true) [] ("uploads/img.png".data)).1)
        = Except.ok sentinel ∧
    (extract_text_with_tesseract (fun _ => true) (fun _ => Except.ok sentinel)
        [] ("uploads/img.png".data)).1 = sentinel := by
  constructor
  · rfl
  · simp [extract_text_with_tesseract]
    decide

/-- C3 (amended): `extract_text_with_tesseract` never propagates a backend
error: whenever the OCR oracle raises it returns exactly the literal sentinel
`Error extracting text`, and whenever the OCR oracle succeeds with text `t` it
returns `t` stripped of surrounding whitespace (which can coincide with the
sentinel only if the recognized text itself strips to that sentence). -/
theorem extract_fails_closed (decodes : Str → Bool) (ocr : Str → Except Str Str)
    (fs : FS) (path : Str) :
    (∀ e, ocr (preprocess_image decodes fs path).1 = Except.error e →
      (extract_text_with_tesseract decodes ocr fs path).1 = sentinel) ∧
    (∀ t, ocr (preprocess_image decodes fs path).1 = Except.ok t →
      (extract_text_with_tesseract decodes ocr fs path).1 = pyStrip t) := by
  constructor
  · intro e he
    rw [extract_text_with_tesseract, he]
  · intro t ht
    rw [extract_text_with_tesseract, ht]

/-- Witness for the amended C3 theorem at a concrete input. -/
theorem extract_fails_closed_witness :
    (extract_text_with_tesseract (fun _ => true) (fun _ => Except.error ("boom".data))
        [] ("uploads/img.png".data)).1 = sentinel :=
  (extract_fails_closed (fun _ => true) (fun _ => Except.error ("boom".data))
    [] ("uploads/img.png".data)).1 ("boom".data) rfl

/-- C10: the string returned by `extract_text_with_tesseract` is a fixed point
of the whitespace normalizer on both branches: stripping it again changes
nothing, because the success branch already strips the OCR output and the
error sentinel carries no surrounding whitespace. -/
theorem extract_result_strip_fixed (decodes : Str → Bool) (ocr : Str → Except Str Str)
    (fs : FS) (path : Str) :
    pyStrip (extract_text_with_tesseract decodes ocr fs path).1
      = (extract_text_with_tesseract decodes ocr fs path).1 := by
  rw [extract_text_with_tesseract]
  cases h : ocr (preprocess_image decodes fs path).1 with
  | ok t => exact pyStrip_idem t
  | error e =>
    show pyStrip sentinel = sentinel
    decide

/-! ## Image validation (src/utils/img_processing.py lines 150-167) -/

/-- Characters after the last `.` of `l`, or none when `l` has no dot. -/
def extAfterLastDot (l : Str) : Option Str :=
  if '.' ∈ l then some (l.reverse.takeWhile (fun c => !(c == '.'))).reverse else none

/-- Python `os.path.splitext(p)[1]`: the extension (with its dot) of the
basename, where the run of leading dots of the basename never starts an
extension (CPython `genericpath._splitext`). -/
def splitextExt (p : Str) : Str :=
  match extAfterLastDot ((basename p).dropWhile (fun c => c == '.')) with
  | none => []
  | some e => '.' :: e

/-- Boolean prefix test: `strStartsWith pre s` holds when `pre` is an initial
segment of `s`; used to classify the validator's reason strings. -/
def strStartsWith : Str → Str → Bool
  | [], _ => true
  | _ :: _, [] => false
  | a :: as, b :: bs => a == b && strStartsWith as bs

/-- The allow-set quoted by the spec: `{png, jpg, jpeg, bmp, tiff, gif}`. -/
def specAllowedExtensions : List Str :=
  ["png".data, "jpg".data, "jpeg".data, "bmp".data, "tiff".data, "gif".data]

/-- The allow-set used by `extract_text_from_image` in
src/utils/img_processing.py line 202: `{png, jpg, jpeg, bmp, gif}`. -/
def utilsAllowedExtensions : List Str :=
  ["png".data, "jpg".data, "jpeg".data, "bmp".data, "gif".data]

/-- Embedding of `validate_image_file` (src/utils/img_processing.py lines
150-167).  `fexists` is the `os.path.exists` oracle; `pilVerify` returns the
message of the exception PIL `Image.open`/`verify` raises when the bytes are
not a decodable image, and `none` when the decode/verify pass succeeds. -/
def validate_image_file (fexists : Str → Bool) (pilVerify : Str → Option Str)
    (filepath : Str) (allowed_extensions : List Str) : Bool × Str :=
  if fexists filepath = false then (false, "File does not exist".data)
  else
    if ¬ (pyLstrip '.' (pyLower (splitextExt filepath))) ∈ allowed_extensions then
      (false, "File type ".data ++ pyLstrip '.' (pyLower (splitextExt filepath))
        ++ " not allowed".data)
    else
      match pilVerify filepath with
      | none => (true, "Valid image file".data)
      | some e => (false, "Invalid image file: ".data ++ e)

theorem strStartsWith_append (p r : Str) : strStartsWith p (p ++ r) = true := by
  induction p with
  | nil => rfl
  | cons a as ih => simp [strStartsWith, ih]

theorem strStartsWith_cons_ne (a b : Char) (as bs : Str) (h : ¬ a = b) :
    strStartsWith (a :: as) (b :: bs) = false := by
  simp [strStartsWith, h]

theorem typePre_not_invalid (e : Str) :
    strStartsWith ("File type ".data) ("Invalid image file: ".data ++ e) = false := by
  show strStartsWith ('F' :: "ile type ".data) ('I' :: ("nvalid image file: ".data ++ e)) = false
  exact strStartsWith_cons_ne _ _ _ _ (by decide)

theorem invalidPre_not_type (ext : Str) :
    strStartsWith ("Invalid image file: ".data)
      ("File type ".data ++ ext ++ " not allowed".data) = false := by
  show strStartsWith ('I' :: "nvalid image file: ".data)
      ('F' :: ("ile type ".data ++ ext ++ " not allowed".data)) = false
  exact strStartsWith_cons_ne _ _ _ _ (by decide)

/-- C4 counterexample: for a file that does not exist and whose extension is
outside the allow-set, the validator reports the file-does-not-exist reason,
not the extension-not-allowed reason, so the claimed biconditional fails over
all file paths.  Concrete input: path `malware.exe`, the spec's allow-set, and
an existence oracle answering false. -/
theorem validate_missing_file_not_ext_reason :
    (validate_image_file (fun _ => false) (fun _ => none) ("malware.exe".data)
        specAllowedExtensions) = (false, "File does not exist".data) ∧
    ¬ (pyLstrip '.' (pyLower (splitextExt ("malware.exe".data)))) ∈ specAllowedExtensions ∧
    strStartsWith ("File type ".data)
        (validate_image_file (fun _ => false) (fun _ => none) ("malware.exe".data)
          specAllowedExtensions).2 = false := by
  refine ⟨rfl, by decide, by decide⟩

/-- C4 (amended): for every file path that exists, the validator fails with
the extension-not-allowed reason exactly when the lowercased dot-stripped
extension is outside the allow-set, fails with the corrupt-or-unreadable
reason exactly when the extension is allowed but the real PIL decode/verify
pass fails, and accepts exactly when the extension is allowed and that pass
succeeds; in particular an existing non-image file renamed to `photo.png`
fails with the corrupt-or-unreadable reason.  (For a missing path the reason
is file-does-not-exist instead, whatever the extension.) -/
theorem validate_image_file_reasons (fexists : Str → Bool) (pilVerify : Str → Option Str)
    (filepath : Str) (allowed : List Str) (hex : fexists filepath = true) :
    (strStartsWith ("File type ".data)
        (validate_image_file fexists pilVerify filepath allowed).2 = true
      ↔ ¬ (pyLstrip '.' (pyLower (splitextExt filepath))) ∈ allowed) ∧
    (strStartsWith ("Invalid image file: ".data)
        (validate_image_file fexists pilVerify filepath allowed).2 = true
      ↔ ((pyLstrip '.' (pyLower (splitextExt filepath))) ∈ allowed ∧
          ¬ pilVerify filepath = none)) ∧
    ((validate_image_file fexists pilVerify filepath allowed).1 = true
      ↔ ((pyLstrip '.' (pyLower (splitextExt filepath))) ∈ allowed ∧
          pilVerify filepath = none)) ∧
    validate_image_file (fun _ => true) (fun _ => some ("cannot identify image file".data))
        ("photo.png".data) specAllowedExtensions
      = (false, "Invalid image file: cannot identify image file".data) := by
  have hne : ¬ fexists filepath = false := by simp [hex]
  have hconc : validate_image_file (fun _ => true)
      (fun _ => some ("cannot identify image file".data))
      ("photo.png".data) specAllowedExtensions
      = (false, "Invalid image file: cannot identify image file".data) := by decide
  by_cases hmem : (pyLstrip '.' (pyLower (splitextExt filepath))) ∈ allowed
  · cases hver : pilVerify filepath with
    | none =>
      have hout : validate_image_file fexists pilVerify filepath allowed
          = (true, "Valid image file".data) := by
        unfold validate_image_file
        rw [if_neg hne, if_neg (not_not_intro hmem), hver]
      rw [hout]
      exact ⟨by simp [hmem]; decide, by simp [hver]; decide, by simp [hmem, hver], hconc⟩
    | some e =>
      have hout : validate_image_file fexists pilVerify filepath allowed
          = (false, "Invalid image file: ".data ++ e) := by
        unfold validate_image_file
        rw [if_neg hne, if_neg (not_not_intro hmem), hver]
      rw [hout]
      refine ⟨?_, ?_, ?_, hconc⟩
      · show strStartsWith ("File type ".data) ("Invalid image file: ".data ++ e) = true
          ↔ ¬ pyLstrip '.' (pyLower (splitextExt filepath)) ∈ allowed
        rw [typePre_not_invalid e]
        simp [hmem]
      · show strStartsWith ("Invalid image file: ".data) ("Invalid image file: ".data ++ e) = true
          ↔ (pyLstrip '.' (pyLower (splitextExt filepath)) ∈ allowed ∧
              ¬ (some e : Option Str) = none)
        rw [strStartsWith_append]
        simp [hmem]
      · simp [hver]
  · have hout : validate_image_file fexists pilVerify filepath allowed
        = (false, "File type ".data ++ pyLstrip '.' (pyLower (splitextExt filepath))
            ++ " not allowed".data) := by
      unfold validate_image_file
      rw [if_neg hne, if_pos hmem]
    rw [hout]
    refine ⟨?_, ?_, ?_, hconc⟩
    · show strStartsWith ("File type ".data)
          ("File type ".data ++ pyLstrip '.' (pyLower (splitextExt filepath))
            ++ " not allowed".data) = true
        ↔ ¬ pyLstrip '.' (pyLower (splitextExt filepath)) ∈ allowed
      rw [List.append_assoc, strStartsWith_append]
      simp [hmem]
    · show strStartsWith ("Invalid image file: ".data)
          ("File type ".data ++ pyLstrip '.' (pyLower (splitextExt filepath))
            ++ " not allowed".data) = true
        ↔ (pyLstrip '.' (pyLower (splitextExt filepath)) ∈ allowed ∧
            ¬ pilVerify filepath = none)
      rw [invalidPre_not_type]
      simp [hmem]
    · simp [hmem]

/-- Witness for the amended C4 theorem at a concrete input. -/
theorem validate_image_file_reasons_witness :
    (validate_image_file (fun _ => true) (fun _ => none) ("photo.png".data)
        specAllowedExtensions).1 = true :=
  ((validate_image_file_reasons (fun _ => true) (fun _ => none) ("photo.png".data)
      specAllowedExtensions rfl).2.2.1).mpr ⟨by decide, rfl⟩

/-! ## PDF export layout (src/app.py lines 188-210) -/

/-- Adobe AFM per-mille glyph widths of Helvetica, as used by reportlab's
`stringWidth`, for the ASCII characters the source draws; characters outside
the table get width 0. -/
def helveticaWidths : List (Char × Nat) :=
  [(' ', 278), ('!', 278), (',', 278), ('-', 333), ('.', 278), (':', 278),
   (';', 278), ('?', 556),
   ('0', 556), ('1', 556), ('2', 556), ('3', 556), ('4', 556), ('5', 556),
   ('6', 556), ('7', 556), ('8', 556), ('9', 556),
   ('A', 667), ('B', 667), ('C', 722), ('D', 722), ('E', 667), ('F', 611),
   ('G', 778), ('H', 722), ('I', 278), ('J', 500), ('K', 667), ('L', 556),
   ('M', 833), ('N', 722), ('O', 778), ('P', 667), ('Q', 778), ('R', 722),
   ('S', 667), ('T', 611), ('U', 722), ('V', 667), ('W', 944), ('X', 667),
   ('Y', 667), ('Z', 611),
   ('a', 556), ('b', 556), ('c', 500), ('d', 556), ('e', 556), ('f', 278),
   ('g', 556), ('h', 556), ('i', 222), ('j', 222), ('k', 500), ('l', 222),
   ('m', 833), ('n', 556), ('o', 556), ('p', 556), ('q', 556), ('r', 333),
   ('s', 500), ('t', 278), ('u', 556), ('v', 500), ('w', 722), ('x', 500),
   ('y', 500), ('z', 500)]

def helveticaWidth (c : Char) : Nat := (helveticaWidths.lookup c).getD 0

/-- Width of a string in per-mille font units; reportlab's
`stringWidth(s, "Helvetica", 12)` equals `12 * stringWidthMilli s / 1000`
points, so the source's test `stringWidth(s) < 450` is
`12 * stringWidthMilli s < 450000`. -/
def stringWidthMilli (l : Str) : Nat := (l.map helveticaWidth).sum

/-- The inner word loop of `export_pdf` (src/app.py lines 192-200): `line`
accumulates `word + " "` while `stringWidth(line + word) < 450`, otherwise the
current line is flushed; a final nonempty line is flushed after the loop. -/
def wrapLine : List Str → Str → List Str
  | [], line => if line.isEmpty then [] else [line]
  | w :: ws, line =>
    if 12 * stringWidthMilli (line ++ w) < 450000 then wrapLine ws (line ++ w ++ [' '])
    else line :: wrapLine ws (w ++ [' '])

/-- The full line-splitting pass of `export_pdf` (src/app.py lines 189-200):
each newline-delimited paragraph is word-wrapped and the lines concatenated. -/
def wrapText (t : Str) : List Str :=
  ((pySplitOn '\n' t).map (fun para => wrapLine (pySplitWs para) [])).join

/-- A line as the code renders it: every accumulated word followed by one
space. -/
def renderWords (ws : List Str) : Str := (ws.map (fun w => w ++ [' '])).join

/-- Greedy wrapping as the spec words it, over lists of words: a line
accumulates words until adding the next would make the rendered width reach
the 450-point budget, then flushes. -/
def specWrapPara : List Str → List Str → List Str
  | [], cur => if cur.isEmpty then [] else [renderWords cur]
  | w :: ws, cur =>
    if 450000 ≤ 12 * stringWidthMilli (renderWords cur ++ w) then
      renderWords cur :: specWrapPara ws [w]
    else specWrapPara ws (cur ++ [w])

theorem renderWords_nil_iff (ws : List Str) : (renderWords ws).isEmpty = ws.isEmpty := by
  cases ws with
  | nil => rfl
  | cons w t =>
    have : renderWords (w :: t) = (w ++ [' ']) ++ renderWords t := by
      simp [renderWords]
    rw [this]
    simp [List.isEmpty_eq_true]

theorem renderWords_append_one (ws : List Str) (w : Str) :
    renderWords (ws ++ [w]) = renderWords ws ++ (w ++ [' ']) := by
  simp [renderWords]

theorem renderWords_single (w : Str) : renderWords [w] = w ++ [' '] := by
  simp [renderWords]

/-- The code's string-accumulator wrap computes exactly the spec's greedy
word-accumulator wrap. -/
theorem wrapLine_eq_specWrapPara (ws : List Str) :
    ∀ cur : List Str, wrapLine ws (renderWords cur) = specWrapPara ws cur := by
  induction ws with
  | nil =>
    intro cur
    simp only [wrapLine, specWrapPara, renderWords_nil_iff]
  | cons w rest ih =>
    intro cur
    simp only [wrapLine, specWrapPara]
    by_cases h : 12 * stringWidthMilli (renderWords cur ++ w) < 450000
    · rw [if_pos h, if_neg (by omega)]
      have harr : renderWords cur ++ w ++ [' '] = renderWords (cur ++ [w]) := by
        rw [renderWords_append_one, List.append_assoc]
      rw [harr, ih]
    · rw [if_neg h, if_pos (by omega)]
      rw [show w ++ [' '] = renderWords [w] from (renderWords_single w).symm, ih]

/-- The page/cursor loop shared by `export_pdf` (src/app.py lines 202-210,
cursor starting at 750) and `convert_to_pdf` (src/utils/img_processing.py
lines 240-247, cursor starting at 760 after the header): draw each line at
the cursor, step down 15pt, and when the cursor has fallen below 50 start a
new page with the cursor reset to 750. -/
def drawLines : List Str → Nat → Int → List (Str × Nat × Int)
  | [], _, _ => []
  | l :: ls, page, y =>
    if y < 50 then (l, page + 1, 750) :: drawLines ls (page + 1) (750 - 15)
    else (l, page, y) :: drawLines ls page (y - 15)

/-- The claim's page-break step: the next line lands 15pt lower on the same
page, except that when the cursor would fall below 50pt a new page is started
with the cursor reset to 750. -/
def pageStep (a b : Str × Nat × Int) : Prop :=
  b.2 = if a.2.2 - 15 < 50 then (a.2.1 + 1, (750 : Int)) else (a.2.1, a.2.2 - 15)

/-- The line/page/cursor triples drawn by `export_pdf` in src/app.py. -/
def export_pdf_positions (t : Str) : List (Str × Nat × Int) :=
  drawLines (wrapText t) 0 750

theorem drawLines_cons (l : Str) (ls : List Str) (page : Nat) (y : Int) :
    drawLines (l :: ls) page y =
      (l, if y < 50 then ((page + 1 : Nat), (750 : Int)) else (page, y)) ::
        drawLines ls (if y < 50 then page + 1 else page)
          ((if y < 50 then (750 : Int) else y) - 15) := by
  by_cases h : y < 50 <;> simp [drawLines, h]

theorem drawLines_chain (ls : List Str) : ∀ (page : Nat) (y : Int),
    List.Chain' pageStep (drawLines ls page y) := by
  induction ls with
  | nil => intro page y; simp [drawLines]
  | cons l rest ih =>
    intro page y
    cases rest with
    | nil =>
      by_cases h : y < 50 <;> simp [drawLines, h]
    | cons l2 rest2 =>
      rw [drawLines_cons l (l2 :: rest2) page y]
      rw [drawLines_cons l2 rest2]
      refine List.chain'_cons.mpr ⟨?_, ?_⟩
      · by_cases h : y < 50
        · simp only [pageStep, h, if_true, if_pos h]
        · simp only [pageStep, h, if_false, if_neg h]
      · rw [← drawLines_cons]
        exact ih _ _

/-- The concrete text of the spec's wrapping scenario. -/
def demoText : Str :=
  "Hello world\nThis is a long line of text that should wrap across the page width boundary for testing purposes here".data

/-- C5: the PDF exporter wraps each newline-delimited paragraph greedily — a
line accumulates words until adding the next would make the rendered
Helvetica-12 width reach the 450-point budget, then flushes; drawn lines step
down 15pt and a new page with the cursor reset to 750 is started whenever the
cursor would fall below 50pt; and on the concrete scenario text the second
paragraph wraps into at least two lines. -/
theorem export_pdf_layout :
    (∀ t : Str, wrapText t
        = ((pySplitOn '\n' t).map (fun para => specWrapPara (pySplitWs para) [])).join) ∧
    (∀ t : Str, List.Chain' pageStep (export_pdf_positions t)) ∧
    (pySplitOn '\n' demoText).length = 2 ∧
    2 ≤ (wrapLine (pySplitWs ((pySplitOn '\n' demoText).getD 1 [])) []).length := by
  refine ⟨?_, ?_, by decide, by decide⟩
  · intro t
    have hpara : ∀ para : Str,
        wrapLine (pySplitWs para) [] = specWrapPara (pySplitWs para) [] := by
      intro para
      exact wrapLine_eq_specWrapPara (pySplitWs para) []
    simp [wrapText, hpara]
  · intro t
    exact drawLines_chain (wrapText t) 0 750

/-! ## Preprocessing pixel pipeline (src/app.py lines 54-65) -/

/-- A single-channel image as rows of pixel intensities. -/
abbrev Img := List (List Nat)

/-- `cv2.threshold(blurred, 0, 255, THRESH_BINARY + THRESH_OTSU)`
(src/app.py line 61): every pixel strictly above the automatically chosen
threshold becomes 255, every other pixel becomes 0. -/
def thresholdBinary (t : Nat) (img : Img) : Img :=
  img.map (fun row => row.map (fun p => if t < p then 255 else 0))

/-- Pixel read; out-of-range indices give 0, which never influences the
maximum taken by dilation. -/
def getPx (img : Img) (i j : Nat) : Nat := (img.getD i []).getD j 0

/-- `cv2.dilate(thresh, np.ones((2, 2)), iterations=1)` (src/app.py lines
64-65): each output pixel is the maximum over the 2x2 neighbourhood anchored
at the kernel centre (truncated subtraction clamps the border). -/
def dilate2x2 (img : Img) : Img :=
  (List.range img.length).map (fun i =>
    (List.range (img.getD i []).length).map (fun j =>
      max (max (getPx img (i - 1) (j - 1)) (getPx img (i - 1) j))
          (max (getPx img i (j - 1)) (getPx img i j))))

/-- The pixel transformation of `preprocess_image` (src/app.py lines 54-65).
The grayscale conversion, the 5x5 Gaussian blur and the Otsu threshold
selection are kept abstract (`gray`, `blur`, `otsu` oracles) because the
binarization property holds for every choice of them; the binary threshold
and the dilation are embedded concretely. -/
def preprocess_pixels (gray blur : Img → Img) (otsu : Img → Nat) (img : Img) : Img :=
  dilate2x2 (thresholdBinary (otsu (blur (gray img))) (blur (gray img)))

theorem getD_prop {α : Type} (P : α → Prop) (l : List α) (d : α) (i : Nat)
    (h0 : P d) (h : ∀ v ∈ l, P v) : P (l.getD i d) := by
  by_cases hi : i < l.length
  · rw [List.getD_eq_getElem l d hi]
    exact h _ (List.getElem_mem hi)
  · rw [List.getD_eq_default l d (Nat.le_of_not_lt hi)]
    exact h0

theorem thresholdBinary_mem (t : Nat) (img : Img) :
    ∀ row ∈ thresholdBinary t img, ∀ v ∈ row, v = 0 ∨ v = 255 := by
  intro row hrow v hv
  rw [thresholdBinary, List.mem_map] at hrow
  obtain ⟨r0, _, hr⟩ := hrow
  subst hr
  rw [List.mem_map] at hv
  obtain ⟨p, _, hp⟩ := hv
  subst hp
  by_cases h : t < p <;> simp [h]

theorem getPx_zero_or (img : Img) (h : ∀ row ∈ img, ∀ v ∈ row, v = 0 ∨ v = 255)
    (a b : Nat) : getPx img a b = 0 ∨ getPx img a b = 255 := by
  unfold getPx
  exact getD_prop (fun v => v = 0 ∨ v = 255) (img.getD a []) 0 b (Or.inl rfl)
    (getD_prop (fun row => ∀ v ∈ row, v = 0 ∨ v = 255) img [] a (by simp) h)

theorem max_zero_or (a b : Nat) (ha : a = 0 ∨ a = 255) (hb : b = 0 ∨ b = 255) :
    max a b = 0 ∨ max a b = 255 := by
  rcases ha with rfl | rfl <;> rcases hb with rfl | rfl <;> simp

theorem dilate2x2_mem (img : Img) (h : ∀ row ∈ img, ∀ v ∈ row, v = 0 ∨ v = 255) :
    ∀ row ∈ dilate2x2 img, ∀ v ∈ row, v = 0 ∨ v = 255 := by
  intro row hrow v hv
  rw [dilate2x2, List.mem_map] at hrow
  obtain ⟨i, _, hr⟩ := hrow
  subst hr
  rw [List.mem_map] at hv
  obtain ⟨j, _, hp⟩ := hv
  subst hp
  exact max_zero_or _ _
    (max_zero_or _ _ (getPx_zero_or img h _ _) (getPx_zero_or img h _ _))
    (max_zero_or _ _ (getPx_zero_or img h _ _) (getPx_zero_or img h _ _))

/-- C6: if the image cannot be decoded, the preprocessor returns the original
path unchanged; if decoding succeeds it returns a path distinct from the
input whose basename is `processed_` prefixed to the input's basename, and
the image it persists — dilation applied to the Otsu-binarized image — has
every pixel value in 0 or 255, for every grayscale/blur/threshold choice. -/
theorem preprocess_image_contract (decodes : Str → Bool) (fs : FS) (path : Str)
    (gray blur : Img → Img) (otsu : Img → Nat) (img : Img) :
    (decodes path = false → (preprocess_image decodes fs path).1 = path) ∧
    (decodes path = true →
      basename (preprocess_image decodes fs path).1 = "processed_".data ++ basename path ∧
      ¬ (preprocess_image decodes fs path).1 = path) ∧
    (∀ row ∈ preprocess_pixels gray blur otsu img, ∀ v ∈ row, v = 0 ∨ v = 255) := by
  refine ⟨?_, ?_, ?_⟩
  · intro h
    simp [preprocess_image, h]
  · intro h
    have hp : (preprocess_image decodes fs path).1 = processedPath path := by
      simp [preprocess_image, h]
    rw [hp]
    exact ⟨basename_processedPath path, processedPath_ne path⟩
  · exact dilate2x2_mem _ (thresholdBinary_mem _ _)

/-- Witness for the C6 theorem at a concrete input. -/
theorem preprocess_image_contract_witness :
    basename (preprocess_image (fun _ => true) [] ("uploads/img.png".data)).1
        = "processed_".data ++ basename ("uploads/img.png".data) ∧
    ¬ (preprocess_image (fun _ => true) [] ("uploads/img.png".data)).1
        = "uploads/img.png".data ∧
    (∀ row ∈ preprocess_pixels id id (fun _ => 100) [[40, 200], [120, 0]],
        ∀ v ∈ row, v = 0 ∨ v = 255) := by
  have H := preprocess_image_contract (fun _ => true) [] ("uploads/img.png".data)
    id id (fun _ => 100) [[40, 200], [120, 0]]
  exact ⟨(H.2.1 rfl).1, (H.2.1 rfl).2, H.2.2⟩

/-! ## In-place resize and the utils extraction path
(src/utils/img_processing.py lines 169-219) -/

/-- The content of a stored file: its pixel dimensions plus an opaque code
standing for the rest of the bytes. -/
structure FileData where
  width : Nat
  height : Nat
  blob : Nat
deriving DecidableEq

/-- A content-level filesystem: each path maps to the data stored there. -/
def Store : Type := Str → Option FileData

/-- Embedding of `resize_image` (src/utils/img_processing.py lines 169-193).
`pilOpen` tells whether PIL can open the stored bytes.  When a dimension
exceeds the maximum, the image is scaled by the exact ratio
`min(max_width/width, max_height/height)`, the new dimensions truncated to
integers, and the result saved over the original path (the comment at line
185 of the source says so explicitly); any exception — missing file,
undecodable bytes — is caught and reported as `false`. -/
def resize_image (pilOpen : FileData → Bool) (store : Store) (filepath : Str)
    (max_width max_height : Nat) : Bool × Store :=
  match store filepath with
  | none => (false, store)
  | some d =>
    if pilOpen d = false then (false, store)
    else if d.width ≤ max_width ∧ d.height ≤ max_height then (true, store)
    else
      (true, fun p => if p = filepath then
          some { width := (⌊(d.width : ℚ)
                    * min ((max_width : ℚ) / (d.width : ℚ))
                          ((max_height : ℚ) / (d.height : ℚ))⌋).toNat
                 height := (⌊(d.height : ℚ)
                    * min ((max_width : ℚ) / (d.width : ℚ))
                          ((max_height : ℚ) / (d.height : ℚ))⌋).toNat
                 blob := d.blob }
        else store p)

/-- The mock OCR text of `extract_text_from_image`
(src/utils/img_processing.py line 214); the timestamp rendering is an input. -/
def mock_text (image_path : Str) (tstr : Str) : Str :=
  "This is a placeholder for extracted text from ".data ++ basename image_path
    ++ ".\nReplace with actual OCR implementation.\nFile was processed at ".data
    ++ tstr ++ ".".data

/-- Embedding of `extract_text_from_image` (src/utils/img_processing.py lines
195-219): validate against the utils allow-set, resize in place when needed,
then return the mock text; the result is `(text?, error?)` as in the source,
paired with the final filesystem. -/
def extract_text_from_image (pilVerify : Str → Option Str) (pilOpen : FileData → Bool)
    (tstr : Str) (store : Store) (image_path : Str) :
    (Option Str × Option Str) × Store :=
  if (validate_image_file (fun p => (store p).isSome) pilVerify image_path
        utilsAllowedExtensions).1 = false then
    ((none, some ("Invalid image: ".data
        ++ (validate_image_file (fun p => (store p).isSome) pilVerify image_path
              utilsAllowedExtensions).2)), store)
  else
    ((some (mock_text image_path tstr), none),
      (resize_image pilOpen store image_path 1200 1200).2)

/-- The store used by the C7 counterexample: a single decodable 2400x100
image at `big.png`. -/
def bigStore : Store := fun p =>
  if p = "big.png".data then some { width := 2400, height := 100, blob := 7 } else none

/-- C7 counterexample: running the utils extraction pipeline on a valid
2400x100 image changes the bytes stored at the original path — the resize
step saves the scaled 1200x50 image over the input file — so extraction does
not leave the original asset unchanged. -/
theorem extract_overwrites_original :
    (extract_text_from_image (fun _ => none) (fun _ => true) ("ts".data)
        bigStore ("big.png".data)).2 ("big.png".data)
      = some { width := 1200, height := 50, blob := 7 } ∧
    ¬ bigStore ("big.png".data) = some { width := 1200, height := 50, blob := 7 } := by
  have hw : (⌊((2400 : Nat) : ℚ) * min (((1200 : Nat) : ℚ) / ((2400 : Nat) : ℚ))
      (((1200 : Nat) : ℚ) / ((100 : Nat) : ℚ))⌋).toNat = 1200 := by
    rw [min_def]
    norm_num
    rfl
  have hh : (⌊((100 : Nat) : ℚ) * min (((1200 : Nat) : ℚ) / ((2400 : Nat) : ℚ))
      (((1200 : Nat) : ℚ) / ((100 : Nat) : ℚ))⌋).toNat = 50 := by
    rw [min_def]
    norm_num
    rfl
  constructor
  · calc (extract_text_from_image (fun _ => none) (fun _ => true) ("ts".data)
          bigStore ("big.png".data)).2 ("big.png".data)
        = some { width := (⌊((2400 : Nat) : ℚ)
                    * min (((1200 : Nat) : ℚ) / ((2400 : Nat) : ℚ))
                          (((1200 : Nat) : ℚ) / ((100 : Nat) : ℚ))⌋).toNat
                 height := (⌊((100 : Nat) : ℚ)
                    * min (((1200 : Nat) : ℚ) / ((2400 : Nat) : ℚ))
                          (((1200 : Nat) : ℚ) / ((100 : Nat) : ℚ))⌋).toNat
                 blob := 7 } := rfl
      _ = some { width := 1200, height := 50, blob := 7 } := by rw [hw, hh]
  · decide

/-- C7 (amended): the tesseract pipeline touches the filesystem only at the
processed-derivative path, so the original asset and every other file survive
extraction unchanged on that path; the utils pipeline writes only at the
input path itself — exactly the in-place overwrite performed by its resize
step when a dimension exceeds the 1200 maximum — so there the original's
bytes are not preserved in general. -/
theorem extraction_frame_effects (decodes : Str → Bool) (ocr : Str → Except Str Str)
    (fs : FS) (path : Str)
    (pilVerify : Str → Option Str) (pilOpen : FileData → Bool) (tstr : Str)
    (store : Store) (image_path : Str) :
    (∀ q : Str, ¬ q = processedPath path →
      (q ∈ (extract_text_with_tesseract decodes ocr fs path).2 ↔ q ∈ fs)) ∧
    (∀ p : Str, ¬ p = image_path →
      (extract_text_from_image pilVerify pilOpen tstr store image_path).2 p = store p) := by
  constructor
  · intro q hq
    rw [extract_text_with_tesseract]
    cases hocr : ocr (preprocess_image decodes fs path).1 with
    | error e =>
      by_cases hdec : decodes path
      · simp [preprocess_image, hdec, List.mem_cons, hq]
      · simp [preprocess_image, hdec]
    | ok t =>
      by_cases hdec : decodes path
      · have hpre : preprocess_image decodes fs path
            = (processedPath path, processedPath path :: fs) := by
          simp [preprocess_image, hdec]
        rw [hpre]
        have hcond : processedPath path ∈ processedPath path :: fs ∧
            ¬ processedPath path = path := ⟨by simp, processedPath_ne path⟩
        simp only [if_pos hcond]
        rw [List.erase_cons_head]
      · have hpre : preprocess_image decodes fs path = (path, fs) := by
          simp [preprocess_image, hdec]
        rw [hpre]
        simp
  · intro p hp
    rw [extract_text_from_image]
    by_cases hv : (validate_image_file (fun r => (store r).isSome) pilVerify image_path
        utilsAllowedExtensions).1 = false
    · simp [hv]
    · simp only [hv, if_false, if_neg hv]
      rw [resize_image]
      cases hs : store image_path with
      | none => rfl
      | some d =>
        by_cases ho : pilOpen d = false
        · simp [ho]
        · by_cases hd : d.width ≤ 1200 ∧ d.height ≤ 1200
          · simp [ho, hd]
          · simp [ho, hd, hp]

/-- Witness for the amended C7 theorem at a concrete input. -/
theorem extraction_frame_effects_witness :
    (extract_text_from_image (fun _ => none) (fun _ => true) ("ts".data)
        bigStore ("big.png".data)).2 ("x.png".data) = bigStore ("x.png".data) :=
  (extraction_frame_effects (fun _ => true) (fun _ => Except.ok ("t".data)) []
      ("a.png".data) (fun _ => none) (fun _ => true) ("ts".data)
      bigStore ("big.png".data)).2 ("x.png".data) (by decide)

/-! ## Cleanup (src/utils/img_processing.py lines 284-316;
src/app.py lines 280-292) -/

/-- One upload-folder entry as cleanup sees it: name, modification time in
seconds, and whether `os.path.isfile` holds for it. -/
structure StoredFile where
  name : Str
  mtime : Int
  regular : Bool
deriving DecidableEq

/-- Embedding of utils `cleanup_files` (lines 284-316): walk the directory,
delete every regular file whose age `now - mtime` strictly exceeds
`max_age_minutes` minutes, and report the number deleted together with the
remaining entries (`file_age > timedelta(minutes=m)` is `now - mtime > m * 60`
in seconds). -/
def cleanup_files (now : Int) (max_age_minutes : Int) :
    List StoredFile → Nat × List StoredFile
  | [] => (0, [])
  | f :: fs =>
    if f.regular = true ∧ max_age_minutes * 60 < now - f.mtime then
      ((cleanup_files now max_age_minutes fs).1 + 1, (cleanup_files now max_age_minutes fs).2)
    else
      ((cleanup_files now max_age_minutes fs).1, f :: (cleanup_files now max_age_minutes fs).2)

/-- Embedding of the delete-everything cleanup route of src/app.py lines
284-287: remove every regular file unconditionally. -/
def cleanup_files_app : List StoredFile → List StoredFile
  | [] => []
  | f :: fs =>
    if f.regular = true then cleanup_files_app fs else f :: cleanup_files_app fs

theorem cleanup_cond_iff (now maxAge : Int) (f : StoredFile) :
    (f.regular && decide (maxAge * 60 < now - f.mtime)) = true
      ↔ (f.regular = true ∧ maxAge * 60 < now - f.mtime) := by
  simp [Bool.and_eq_true, decide_eq_true_eq]

/-- C8 counterexample: with `max_age_minutes = 0` a regular file whose mtime
equals the current instant (age exactly zero) is not deleted — the code only
deletes files strictly older than the threshold — so "with max_age_minutes=0
it deletes all files in storage" fails.  Concrete input: now = 1000 and one
fresh regular file. -/
theorem cleanup_zero_keeps_fresh_file :
    cleanup_files 1000 0 [{ name := "f.png".data, mtime := 1000, regular := true }]
      = (0, [{ name := "f.png".data, mtime := 1000, regular := true }]) := by
  decide

/-- C8 (amended): the age-based cleanup deletes exactly the regular entries
whose age strictly exceeds `max_age_minutes` and reports `deleted_count`
equal to the number it deleted; with `max_age_minutes = 0` this deletes
exactly the regular files modified strictly before the current instant (an
age-zero file survives); when no entry is old enough — e.g. fresh files with
`max_age_minutes = 10000` — nothing is deleted; and the delete-everything
route removes every regular entry unconditionally. -/
theorem cleanup_files_spec (now maxAge : Int) (entries : List StoredFile) :
    (cleanup_files now maxAge entries).2
        = entries.filter (fun f => !(f.regular && decide (maxAge * 60 < now - f.mtime))) ∧
    (cleanup_files now maxAge entries).1
        = (entries.filter (fun f => f.regular && decide (maxAge * 60 < now - f.mtime))).length ∧
    ((∀ f ∈ entries, now - f.mtime ≤ maxAge * 60) →
      (cleanup_files now maxAge entries).1 = 0 ∧
      (cleanup_files now maxAge entries).2 = entries) ∧
    cleanup_files_app entries = entries.filter (fun f => !f.regular) := by
  induction entries with
  | nil => exact ⟨rfl, rfl, fun _ => ⟨rfl, rfl⟩, rfl⟩
  | cons f fs ih =>
    obtain ⟨ih1, ih2, ih3, ih4⟩ := ih
    have happ : cleanup_files_app (f :: fs) = (f :: fs).filter (fun g => !g.regular) := by
      by_cases hr : f.regular = true
      · simp [cleanup_files_app, hr, List.filter_cons, ih4]
      · have hr2 : f.regular = false := by
          cases hfr : f.regular
          · rfl
          · exact absurd hfr hr
        simp [cleanup_files_app, hr, hr2, List.filter_cons, ih4]
    by_cases hc : f.regular = true ∧ maxAge * 60 < now - f.mtime
    · have hb : (f.regular && decide (maxAge * 60 < now - f.mtime)) = true :=
        (cleanup_cond_iff now maxAge f).mpr hc
      refine ⟨?_, ?_, ?_, happ⟩
      · simp [cleanup_files, hc, List.filter_cons, hb, ih1]
      · simp [cleanup_files, hc, List.filter_cons, hb, ih2]
      · intro hall
        exact absurd hc.2 (by
          have := hall f (by simp)
          omega)
    · have hb : (f.regular && decide (maxAge * 60 < now - f.mtime)) = false := by
        cases hfr : (f.regular && decide (maxAge * 60 < now - f.mtime))
        · rfl
        · exact absurd ((cleanup_cond_iff now maxAge f).mp hfr) hc
      have hcc : f.regular = false ∨ now ≤ maxAge * 60 + f.mtime := by
        cases hfr : f.regular
        · exact Or.inl rfl
        · right
          have hnlt : ¬ maxAge * 60 < now - f.mtime := fun hlt => hc ⟨hfr, hlt⟩
          omega
      refine ⟨?_, ?_, ?_, happ⟩
      · simp [cleanup_files, hc, List.filter_cons, hb, hcc, ih1]
      · simp [cleanup_files, hc, List.filter_cons, hb, hcc, ih2]
      · intro hall
        have hrec := ih3 (fun g hg => hall g (by simp [hg]))
        refine ⟨?_, ?_⟩
        · simp [cleanup_files, hc, hrec.1]
        · simp [cleanup_files, hc, hrec.2]

/-- Witness for the amended C8 theorem at a concrete input. -/
theorem cleanup_files_spec_witness :
    (cleanup_files 1000 10000
        [{ name := "f.png".data, mtime := 1000, regular := true }]).1 = 0 :=
  ((cleanup_files_spec 1000 10000
      [{ name := "f.png".data, mtime := 1000, regular := true }]).2.2.1
    (by decide)).1

/-! ## Exporter determinism (src/utils/img_processing.py lines 221-262) -/

/-- The JSON object of utils `convert_to_json` (lines 253-262): text, the
`datetime.now()` reading of the run, counts derived from the text, and the
read-only `get_file_info` metadata of the original image under
`static/uploads`. -/
structure JsonDoc where
  filename : Str
  extracted_text : Str
  processed_at : Int
  character_count : Nat
  line_count : Nat
  file_info : Str
deriving DecidableEq

/-- Embedding of `convert_to_json`; `now` is the clock reading and `fileInfo`
the read-only metadata lookup. -/
def convert_to_json (fileInfo : Str → Str) (now : Int) (text filename : Str) : JsonDoc :=
  { filename := filename
    extracted_text := text
    processed_at := now
    character_count := text.length
    line_count := (pySplitOn '\n' text).length
    file_info := fileInfo (pathJoin "static/uploads".data filename) }

/-- A PDF artifact of utils `convert_to_pdf` (lines 221-251): the header
drawn at the top of page one carries the filename and the `datetime.now()`
reading; the body is the drawn (line, page, cursor) triples — the text split
on newlines (this variant does no word wrap), drawn from cursor 760 with the
same 15pt step and new-page-below-50 loop as the app exporter. -/
structure PdfDoc where
  header_filename : Str
  header_time : Int
  body : List (Str × Nat × Int)
deriving DecidableEq

/-- Embedding of `convert_to_pdf`. -/
def convert_to_pdf (now : Int) (text filename : Str) : PdfDoc :=
  { header_filename := "File: ".data ++ filename
    header_time := now
    body := drawLines (pySplitOn '\n' text) 0 760 }

/-- Number of pages of a PDF artifact: one more than the highest page index
drawn (a single page when no line is drawn). -/
def pdfPageCount (d : PdfDoc) : Nat :=
  d.body.foldr (fun e acc => max (e.2.1 + 1) acc) 1

/-- Number of drawn body lines of a PDF artifact. -/
def pdfLineCount (d : PdfDoc) : Nat := d.body.length

/-- C9 counterexample: two runs of the same exporter on the same
(text, filename) pair but at different clock readings produce different
artifacts — `convert_to_json` embeds `processed_at = datetime.now()` and
`convert_to_pdf` draws the `datetime.now()` reading in its header — so the
exporters are not pure functions of the (text, filename) pair alone and
repeated runs do not yield identical artifacts. -/
theorem exporters_not_time_invariant :
    ¬ convert_to_json (fun _ => "meta".data) 0 ("hello".data) ("a.png".data)
        = convert_to_json (fun _ => "meta".data) 1 ("hello".data) ("a.png".data) ∧
    ¬ convert_to_pdf 0 ("hello".data) ("a.png".data)
        = convert_to_pdf 1 ("hello".data) ("a.png".data) := by
  constructor
  · intro h
    have := congrArg JsonDoc.processed_at h
    simp [convert_to_json] at this
  · intro h
    have := congrArg PdfDoc.header_time h
    simp [convert_to_pdf] at this

/-- C9 (amended): each exporter is a deterministic function of the text, the
filename, the clock reading and (for JSON) the file-metadata lookup, and
everything except the embedded timestamp is run-independent: runs at any two
clock readings agree on the whole PDF body — hence on page count and line
count — on the PDF header filename, and on every JSON field other than
`processed_at`; side effects are absent by construction apart from the
read-only file_info lookup. -/
theorem exporters_deterministic (fileInfo : Str → Str) (t1 t2 : Int)
    (text filename : Str) :
    (convert_to_pdf t1 text filename).body = (convert_to_pdf t2 text filename).body ∧
    pdfPageCount (convert_to_pdf t1 text filename)
        = pdfPageCount (convert_to_pdf t2 text filename) ∧
    pdfLineCount (convert_to_pdf t1 text filename)
        = pdfLineCount (convert_to_pdf t2 text filename) ∧
    (convert_to_pdf t1 text filename).header_filename
        = (convert_to_pdf t2 text filename).header_filename ∧
    (convert_to_json fileInfo t1 text filename).extracted_text
        = (convert_to_json fileInfo t2 text filename).extracted_text ∧
    (convert_to_json fileInfo t1 text filename).character_count
        = (convert_to_json fileInfo t2 text filename).character_count ∧
    (convert_to_json fileInfo t1 text filename).line_count
        = (convert_to_json fileInfo t2 text filename).line_count ∧
    (convert_to_json fileInfo t1 text filename).file_info
        = (convert_to_json fileInfo t2 text filename).file_info :=
  ⟨rfl, rfl, rfl, rfl, rfl, rfl, rfl, rfl⟩
